import Mathlib

/-!
Verification of the campaign-manager asynchronous pipeline.

This file embeds, as pure Lean functions, the core of the repository:

* the data model (`app/models.py`): `Recipient`, `Campaign` and the
  many-to-many campaign/recipient association;
* the committed database state (`Store`), with the unique index on
  `recipients.email` modelled in the commit step;
* `RecipientService.get_or_create_recipient`, `opt_out_recipient` and
  `opt_in_recipient` (`app/services/recipient_service.py`);
* the two Celery task bodies `process_recipients_task` and
  `send_campaign_task` (`app/worker.py`).

Session semantics embedded here follow `app/database.py`: sessions are
created with `autoflush=False`, so a query inside a task sees only the
committed store, never objects added to the session but not yet flushed.
Object identity inside one session is modelled by recipient ids: committed
rows keep their ids, and each `db.add`-ed pending object receives a fresh
provisional id (distinct from every committed id and from every other
pending object), mirroring Python object identity and the identity map.
A task commits once at the end of its unit of work; if the commit violates
the unique email index it raises `IntegrityError`, which the task's outer
handler converts to `CampaignError`, and nothing is persisted.
-/

namespace CampaignManager

/-- A row of the `recipients` table (`app/models.py`). -/
structure Recipient where
  id : Nat
  email : String
  name : Option String := none
  groupId : Option Nat := none
  opt_out : Bool
deriving Repr, DecidableEq

/-- A row of the `campaigns` table together with its `campaign_recipients`
association (`app/models.py`): `recipientIds` lists, in insertion order, the
ids of the recipients linked to the campaign. -/
structure Campaign where
  id : Nat
  title : String
  message : String
  status : String
  recipientIds : List Nat
deriving Repr, DecidableEq

/-- The committed database state. `nextRecipientId` models the primary-key
sequence for `recipients`. -/
structure Store where
  recipients : List Recipient
  campaigns : List Campaign
  nextRecipientId : Nat
deriving Repr, DecidableEq

/-- `db.query(Recipient).filter(Recipient.email == email).first()`. -/
def findByEmail (rs : List Recipient) (email : String) : Option Recipient :=
  rs.find? (fun r => r.email == email)

/-- `db.query(Campaign).filter(Campaign.id == campaign_id).first()`. -/
def findCampaign (s : Store) (cid : Nat) : Option Campaign :=
  s.campaigns.find? (fun c => c.id == cid)

/-- Well-formedness of the committed store: primary keys are unique, the
unique index on `recipients.email` holds, and the id sequence is ahead of
every existing row. -/
def Store.WF (s : Store) : Prop :=
  (s.recipients.map (·.id)).Nodup ∧
  (s.recipients.map (·.email)).Nodup ∧
  ∀ r ∈ s.recipients, r.id < s.nextRecipientId

instance (s : Store) : Decidable s.WF := by
  unfold Store.WF; infer_instance

/-- The application's exception taxonomy (`app/exceptions.py`), restricted to
the constructors raised on the code paths embedded here. The embedded message
strings omit the interpolated `str(e)` suffix of the originating low-level
exception. -/
inductive AppError where
  | notFound (resource : String) (resourceId : Nat)
  | duplicate (resource : String) (field : String) (value : String)
  | database (message : String) (operation : String)
  | campaign (message : String) (campaignId : Nat) (operation : String)
deriving Repr, DecidableEq

/-! ## RecipientService (`app/services/recipient_service.py`) -/

/-- Outcome of the `db.commit()` issued by `get_or_create_recipient` when it
inserts a new row.  `integrityUnique` is an `IntegrityError` whose text
contains "unique constraint" — the signal produced when another session
committed a row for the same email between this session's lookup and its
insert.  `integrityOther` is any other `IntegrityError`; `otherFailure` is
any non-`IntegrityError` exception. -/
inductive DbSignal where
  | ok
  | integrityUnique
  | integrityOther
  | otherFailure
deriving Repr, DecidableEq

/-- `RecipientService.get_or_create_recipient`: look the email up; if found,
return the row; otherwise insert a new row with `opt_out=False` and commit.
The `except IntegrityError` handler rolls back and raises `DuplicateError`
when the error text mentions the unique constraint, `DatabaseError`
otherwise; the `except Exception` handler rolls back and raises
`DatabaseError`. -/
def get_or_create_recipient (s : Store) (email : String) (name : Option String)
    (signal : DbSignal) : Except AppError (Recipient × Store) :=
  match findByEmail s.recipients email with
  | some r => .ok (r, s)
  | none =>
    match signal with
    | .ok =>
      let r : Recipient := { id := s.nextRecipientId, email := email, name := name,
                             groupId := none, opt_out := false }
      .ok (r, { s with recipients := s.recipients ++ [r],
                       nextRecipientId := s.nextRecipientId + 1 })
    | .integrityUnique => .error (.duplicate "Recipient" "email" email)
    | .integrityOther => .error (.database "Failed to create recipient" "create_recipient")
    | .otherFailure => .error (.database "Database error" "get_or_create_recipient")

/-- `RecipientService.opt_out_recipient`: create the recipient with
`opt_out=True` when it does not exist, otherwise set its flag, then commit. -/
def opt_out_recipient (s : Store) (email : String) : Recipient × Store :=
  match findByEmail s.recipients email with
  | none =>
    let r : Recipient := { id := s.nextRecipientId, email := email, name := none,
                           groupId := none, opt_out := true }
    (r, { s with recipients := s.recipients ++ [r],
                 nextRecipientId := s.nextRecipientId + 1 })
  | some r =>
    let r' := { r with opt_out := true }
    (r', { s with recipients := s.recipients.map (fun x => if x.id = r.id then r' else x) })

/-- `RecipientService.opt_in_recipient`: create the recipient with
`opt_out=False` when it does not exist, otherwise clear its flag, then
commit. -/
def opt_in_recipient (s : Store) (email : String) : Recipient × Store :=
  match findByEmail s.recipients email with
  | none =>
    let r : Recipient := { id := s.nextRecipientId, email := email, name := none,
                           groupId := none, opt_out := false }
    (r, { s with recipients := s.recipients ++ [r],
                 nextRecipientId := s.nextRecipientId + 1 })
  | some r =>
    let r' := { r with opt_out := false }
    (r', { s with recipients := s.recipients.map (fun x => if x.id = r.id then r' else x) })

/-! ## `process_recipients_task` (`app/worker.py`) -/

/-- `f"Error processing recipient {email}: {str(e)}"`; the exception text is
modelled by a fixed transient-failure marker. -/
def recipErrorMsg (email : String) : String :=
  "Error processing recipient " ++ email ++ ": transient failure"

/-- The in-session state accumulated by the reconciliation loop: pending
(added, unflushed) recipient objects, the `campaign.recipients` collection
(as identity ids), the counters, the errors list, and the provisional-id
counter for fresh session objects. -/
structure ReconState where
  pendings : List Recipient
  links : List Nat
  processed : Nat
  skipped : Nat
  errors : List String
  nextId : Nat
deriving Repr, DecidableEq

/-- One iteration of the loop body of `process_recipients_task` for `email`,
on the success path (no exception at this item).  The lookup sees only the
committed store `rs` (the session has `autoflush=False`); a missing recipient
is constructed with `opt_out=False` and `db.add`-ed; a non-opted-out
recipient is appended to `campaign.recipients` unless already a member
(object identity, here id membership). -/
def stepEmail (rs : List Recipient) (email : String) (st : ReconState) : ReconState :=
  match findByEmail rs email with
  | none =>
    let r : Recipient := { id := st.nextId, email := email, name := none,
                           groupId := none, opt_out := false }
    { st with pendings := st.pendings ++ [r], nextId := st.nextId + 1,
              links := st.links ++ [r.id], processed := st.processed + 1 }
  | some r =>
    if r.opt_out then
      { st with skipped := st.skipped + 1 }
    else if r.id ∈ st.links then
      st
    else
      { st with links := st.links ++ [r.id], processed := st.processed + 1 }

/-- The `for email in recipient_emails` loop.  `oracle` lists, per iteration,
whether a transient exception is raised while processing that item (`true` =
the item's `try` body raises); a raised item is caught by the per-item
`except`, its message appended to `errors`, and the loop continues. -/
def reconLoop (rs : List Recipient) (emails : List String) (oracle : List Bool)
    (st : ReconState) : ReconState :=
  match emails with
  | [] => st
  | e :: es =>
    let st' := if oracle.headD false then
                 { st with errors := st.errors ++ [recipErrorMsg e] }
               else
                 stepEmail rs e st
    reconLoop rs es oracle.tail st'

/-- The dictionary returned by `process_recipients_task`. -/
structure ReconResult where
  campaign_id : Nat
  processed_count : Nat
  skipped_count : Nat
  error_count : Nat
  errors : List String
  status : String
deriving Repr, DecidableEq

/-- The unique index on `recipients.email`: the commit flushing `pendings`
into `rs` succeeds iff no two rows (existing or pending) share an email. -/
def emailsUnique (rs pendings : List Recipient) : Prop :=
  ((rs ++ pendings).map (·.email)).Nodup

instance (rs pendings : List Recipient) : Decidable (emailsUnique rs pendings) := by
  unfold emailsUnique; infer_instance

/-- The session's loop state at entry: no pending objects, the campaign's
already-linked recipients loaded, counters zeroed, and the provisional-id
counter starting at the store's id sequence. -/
def initState (s : Store) (campaign : Campaign) : ReconState :=
  { pendings := [], links := campaign.recipientIds, processed := 0,
    skipped := 0, errors := [], nextId := s.nextRecipientId }

/-- The result dictionary built by `process_recipients_task` after the
loop. -/
def reconResult (campaign_id : Nat) (st : ReconState) : ReconResult :=
  { campaign_id := campaign_id, processed_count := st.processed,
    skipped_count := st.skipped, error_count := st.errors.length,
    errors := st.errors, status := "completed" }

/-- The store committed by `process_recipients_task`: pending recipients
flushed, the campaign's status set to `recipients_processed` and its link
set replaced by the session's collection, the id sequence advanced. -/
def commitRecon (s : Store) (campaign_id : Nat) (st : ReconState) : Store :=
  { recipients := s.recipients ++ st.pendings,
    campaigns := s.campaigns.map (fun k =>
      if k.id = campaign_id then
        { k with status := "recipients_processed", recipientIds := st.links }
      else k),
    nextRecipientId := st.nextId }

/-- `process_recipients_task(campaign_id, recipient_emails)`.  Returns the
task's result (or the escaping exception) together with the committed store
after the run.  A missing campaign raises `NotFoundError` before any
mutation.  After the loop the campaign status is set to
`recipients_processed` and the session commits once; an `IntegrityError` at
that commit (duplicate email among the flushed inserts) escapes to the outer
handler, which raises `CampaignError`, and the session is closed without
persisting anything. -/
def process_recipients_task (s : Store) (campaign_id : Nat)
    (recipient_emails : List String) (oracle : List Bool) :
    Except AppError ReconResult × Store :=
  match findCampaign s campaign_id with
  | none => (.error (.notFound "Campaign" campaign_id), s)
  | some campaign =>
    let st := reconLoop s.recipients recipient_emails oracle (initState s campaign)
    if emailsUnique s.recipients st.pendings then
      (.ok (reconResult campaign_id st), commitRecon s campaign_id st)
    else
      (.error (.campaign "Failed to process recipients" campaign_id
                "process_recipients"), s)

/-! ## `send_campaign_task` (`app/worker.py`) -/

/-- The names bound at module scope in `app/worker.py`: its imports
(`import os`, `import logging`, `from celery import Celery`,
`from sqlalchemy.orm import Session`, `from . import models, database,
notifications`, `from .exceptions import ...`) and its own top-level
definitions. -/
def workerModuleScope : List String :=
  ["os", "logging", "Celery", "Session", "models", "database", "notifications",
   "NotFoundError", "DatabaseError", "NotificationError", "CampaignError",
   "CELERY_BROKER_URL", "CELERY_RESULT_BACKEND", "celery_app", "logger",
   "process_recipients_task", "send_campaign_task"]

/-- One invocation of the notification channel: the arguments the code
intends to pass to `EmailNotifier.send`. -/
structure ChannelCall where
  to_email : String
  subject : String
  message : String
deriving Repr, DecidableEq

/-- The per-recipient send expression
`notifiers["email"].send(to_email=..., subject=..., message=...)`.
Evaluating it first resolves the name `notifiers` in the worker module's
scope; the name is not bound there, so the expression raises `NameError`
before the notification channel (`channel`, the behaviour of
`EmailNotifier.send` keyed by recipient address) can be consulted, and no
channel call is made.  Were the name bound to
`app.notifications.notifiers` — a `list` — subscripting it with the string
"email" would raise `TypeError`, again before any channel call. -/
def attemptSend (channel : String → Bool) (c : Campaign) (r : Recipient) :
    Except String Unit × List ChannelCall :=
  if "notifiers" ∈ workerModuleScope then
    (.error "TypeError: list indices must be integers or slices, not str", [])
  else
    (.error "NameError: name notifiers is not defined", [])

/-- Accumulator of the send loop. -/
structure SendState where
  sent : Nat
  errCount : Nat
  errors : List String
  calls : List ChannelCall
deriving Repr, DecidableEq

/-- `f"Error sending to {recipient.email}: {str(e)}"`. -/
def sendErrorMsg (email msg : String) : String :=
  "Error sending to " ++ email ++ ": " ++ msg

/-- The `for recipient in active_recipients` loop of `send_campaign_task`:
each send attempt is independent; a raised attempt is caught, its message
appended to `errors`, `error_count` incremented, and the loop continues. -/
def sendLoop (channel : String → Bool) (c : Campaign) (rs : List Recipient)
    (st : SendState) : SendState :=
  match rs with
  | [] => st
  | r :: rest =>
    match attemptSend channel c r with
    | (.ok _, calls) =>
      sendLoop channel c rest
        { st with sent := st.sent + 1, calls := st.calls ++ calls }
    | (.error m, calls) =>
      sendLoop channel c rest
        { st with errCount := st.errCount + 1,
                  errors := st.errors ++ [sendErrorMsg r.email m],
                  calls := st.calls ++ calls }

/-- The dictionary returned by `send_campaign_task`.  The early
no-recipients return carries no `errors` key in the source; it is modelled
with `errors = []`. -/
structure SendResult where
  campaign_id : Nat
  sent_count : Nat
  error_count : Nat
  errors : List String
  status : String
deriving Repr, DecidableEq

/-- `[r for r in campaign.recipients if not r.opt_out]`. -/
def activeRecipients (s : Store) (c : Campaign) : List Recipient :=
  (c.recipientIds.filterMap (fun i => s.recipients.find? (fun r => r.id == i))).filter
    (fun r => !r.opt_out)

/-- `send_campaign_task(campaign_id)`.  Returns the task's result (or the
escaping exception), the committed store after the run, and the list of
notification-channel invocations actually performed.  A missing campaign
raises `NotFoundError` before any mutation.  With no active recipients the
status becomes `sent_no_recipients` and a zero-count result is returned;
otherwise the loop runs and the status becomes `sent` unconditionally. -/
def send_campaign_task (s : Store) (campaign_id : Nat) (channel : String → Bool) :
    Except AppError SendResult × Store × List ChannelCall :=
  match findCampaign s campaign_id with
  | none => (.error (.notFound "Campaign" campaign_id), s, [])
  | some campaign =>
    let active := activeRecipients s campaign
    if active.isEmpty then
      let s' : Store :=
        { s with campaigns := s.campaigns.map (fun k =>
            if k.id = campaign_id then { k with status := "sent_no_recipients" } else k) }
      (.ok { campaign_id := campaign_id, sent_count := 0, error_count := 0,
             errors := [], status := "completed_no_recipients" }, s', [])
    else
      let st := sendLoop channel campaign active
        { sent := 0, errCount := 0, errors := [], calls := [] }
      let s' : Store :=
        { s with campaigns := s.campaigns.map (fun k =>
            if k.id = campaign_id then { k with status := "sent" } else k) }
      (.ok { campaign_id := campaign_id, sent_count := st.sent,
             error_count := st.errCount, errors := st.errors,
             status := "completed" }, s', st.calls)

deriving instance DecidableEq for Except

/-! ## Concrete stores used by the executable claims -/

/-- A store with three active recipients all linked to campaign 1. -/
def storeC1 : Store :=
  { recipients := [ { id := 1, email := "a@x.com", opt_out := false },
                    { id := 2, email := "b@x.com", opt_out := false },
                    { id := 3, email := "c@x.com", opt_out := false } ],
    campaigns := [ { id := 1, title := "Sale", message := "50% off",
                     status := "queued", recipientIds := [1, 2, 3] } ],
    nextRecipientId := 4 }

/-- A notification channel that succeeds for `a@x.com` and `b@x.com` and
fails for `c@x.com`. -/
def channelC1 : String → Bool := fun e => e != "c@x.com"

/-- An empty directory with one pending campaign and no links. -/
def storeC3 : Store :=
  { recipients := [],
    campaigns := [ { id := 1, title := "Sale", message := "50% off",
                     status := "pending", recipientIds := [] } ],
    nextRecipientId := 1 }

/-! ## Specification projections

Small projection functions used to state properties of the loops; they read
off one stream of the loop (the failed items, the opted-out hits) and are
compared against the loop's accumulated fields. -/

/-- The emails of the iterations at which the per-item exception oracle
fires, in order. -/
def failedEmails (emails : List String) (oracle : List Bool) : List String :=
  match emails with
  | [] => []
  | e :: es =>
    if oracle.headD false then e :: failedEmails es oracle.tail
    else failedEmails es oracle.tail

/-- The number of non-failing iterations whose email resolves, in the
committed store, to a recipient with `opt_out = true`. -/
def optedOutHits (rs : List Recipient) (emails : List String) (oracle : List Bool) : Nat :=
  match emails with
  | [] => 0
  | e :: es =>
    (if oracle.headD false then 0
     else
       match findByEmail rs e with
       | some r => if r.opt_out then 1 else 0
       | none => 0) + optedOutHits rs es oracle.tail

/-- The text of the exception raised by the per-recipient send expression in
`send_campaign_task`. -/
def nameErrorText : String := "NameError: name notifiers is not defined"

/-! ## Helper lemmas -/

theorem find?_append_left {α : Type} (l₁ l₂ : List α) (p : α → Bool) (a : α)
    (h : l₁.find? p = some a) : (l₁ ++ l₂).find? p = some a := by
  induction l₁ with
  | nil => simp [List.find?] at h
  | cons x xs ih =>
    by_cases hx : p x
    · rw [List.find?_cons_of_pos _ hx] at h
      simpa [List.find?_cons_of_pos _ hx] using h
    · rw [List.find?_cons_of_neg _ hx] at h
      simpa [List.find?_cons_of_neg _ hx] using ih h

theorem find?_append_none {α : Type} (l₁ l₂ : List α) (p : α → Bool)
    (h : l₁.find? p = none) : (l₁ ++ l₂).find? p = l₂.find? p := by
  induction l₁ with
  | nil => simp
  | cons x xs ih =>
    by_cases hx : p x
    · rw [List.find?_cons_of_pos _ hx] at h; exact absurd h (by simp)
    · rw [List.find?_cons_of_neg _ hx] at h
      simpa [List.find?_cons_of_neg _ hx] using ih h

theorem map_eq_self_of_forall {α : Type} (l : List α) (f : α → α)
    (h : ∀ a ∈ l, f a = a) : l.map f = l := by
  induction l with
  | nil => rfl
  | cons x xs ih =>
    simp only [List.map_cons, h x (by simp)]
    rw [ih (fun a ha => h a (by simp [ha]))]

/-- Updating the campaign rows with an id-preserving function commutes with
looking a campaign up by id. -/
theorem findCampaign_map_update (cs : List Campaign) (cid : Nat)
    (f : Campaign → Campaign) (hf : ∀ k, (f k).id = k.id) (c : Campaign)
    (h : cs.find? (fun k => k.id == cid) = some c) :
    (cs.map (fun k => if k.id = cid then f k else k)).find?
      (fun k => k.id == cid) = some (if c.id = cid then f c else c) := by
  induction cs with
  | nil => simp [List.find?] at h
  | cons x xs ih =>
    by_cases hx : x.id = cid
    · rw [List.find?_cons_of_pos _ (by simp [hx])] at h
      cases h
      simp only [List.map_cons, if_pos hx]
      rw [List.find?_cons_of_pos _ (by simp [hf, hx])]
    · rw [List.find?_cons_of_neg _ (by simp [hx])] at h
      simp only [List.map_cons, if_neg hx]
      rw [List.find?_cons_of_neg _ (by simp [hx])]
      exact ih h

/-! ## Claim C7 -/

/-- C7: for a `campaignID` that references no existing Campaign, both
`process_recipients_task` (Reconcile) and `send_campaign_task` (Dispatch)
fail with `NotFoundError("Campaign", id)`, the error propagates out of the
job, the store is unchanged, and no notification-channel call is made. -/
theorem C7_notfound_fatal_no_mutation (s : Store) (cid : Nat)
    (emails : List String) (oracle : List Bool) (channel : String → Bool)
    (h : findCampaign s cid = none) :
    process_recipients_task s cid emails oracle
      = (.error (.notFound "Campaign" cid), s)
    ∧ send_campaign_task s cid channel
      = (.error (.notFound "Campaign" cid), s, []) := by
  constructor
  · unfold process_recipients_task
    rw [h]
  · unfold send_campaign_task
    rw [h]

/-- Witness for C7 at a concrete store with no campaign with id 7. -/
theorem C7_witness :
    process_recipients_task { recipients := [], campaigns := [], nextRecipientId := 1 }
        7 ["a@x.com"] [] = (.error (.notFound "Campaign" 7),
          { recipients := [], campaigns := [], nextRecipientId := 1 })
    ∧ send_campaign_task { recipients := [], campaigns := [], nextRecipientId := 1 }
        7 (fun _ => true) = (.error (.notFound "Campaign" 7),
          { recipients := [], campaigns := [], nextRecipientId := 1 }, []) :=
  C7_notfound_fatal_no_mutation
    { recipients := [], campaigns := [], nextRecipientId := 1 }
    7 ["a@x.com"] [] (fun _ => true) rfl

/-! ## Claim C2 -/

/-- C2 counterexample: when the insert of a new email hits the store's
uniqueness-violation signal (concurrent creation), `get_or_create_recipient`
does NOT fetch and return the now-existing row: it surfaces
`DuplicateError("Recipient", "email", email)` to the caller. -/
theorem C2_counterexample_duplicate_raised :
    get_or_create_recipient
        { recipients := [], campaigns := [], nextRecipientId := 1 }
        "a@x.com" none .integrityUnique
      = .error (.duplicate "Recipient" "email" "a@x.com")
    ∧ (get_or_create_recipient
        { recipients := [], campaigns := [], nextRecipientId := 1 }
        "a@x.com" none .integrityUnique).isOk = false := by
  constructor <;> rfl

/-- C2 amended: on a lookup miss, a uniqueness-violation signal at the
insert makes `get_or_create_recipient` raise `DuplicateError` — handled
distinctly from other persistence failures, which raise `DatabaseError` —
rather than fetching and returning the now-existing row. -/
theorem C2_amended_signal_distinction (s : Store) (email : String)
    (name : Option String) (h : findByEmail s.recipients email = none) :
    get_or_create_recipient s email name .integrityUnique
      = .error (.duplicate "Recipient" "email" email)
    ∧ get_or_create_recipient s email name .integrityOther
      = .error (.database "Failed to create recipient" "create_recipient")
    ∧ get_or_create_recipient s email name .otherFailure
      = .error (.database "Database error" "get_or_create_recipient") := by
  unfold get_or_create_recipient
  rw [h]
  exact ⟨rfl, rfl, rfl⟩

/-- Witness for C2's amended theorem at a concrete empty store. -/
theorem C2_witness :
    get_or_create_recipient
        { recipients := [], campaigns := [], nextRecipientId := 1 }
        "b@x.com" none .integrityUnique
      = .error (.duplicate "Recipient" "email" "b@x.com")
    ∧ get_or_create_recipient
        { recipients := [], campaigns := [], nextRecipientId := 1 }
        "b@x.com" none .integrityOther
      = .error (.database "Failed to create recipient" "create_recipient")
    ∧ get_or_create_recipient
        { recipients := [], campaigns := [], nextRecipientId := 1 }
        "b@x.com" none .otherFailure
      = .error (.database "Database error" "get_or_create_recipient") :=
  C2_amended_signal_distinction
    { recipients := [], campaigns := [], nextRecipientId := 1 }
    "b@x.com" none rfl

/-! ## The send loop always raises `NameError` -/

/-- The per-recipient send expression of `send_campaign_task` raises
`NameError` for every recipient and never reaches the notification
channel: `notifiers` is not among the names bound in `app/worker.py`. -/
theorem attemptSend_eq (channel : String → Bool) (c : Campaign) (r : Recipient) :
    attemptSend channel c r = (.error nameErrorText, []) := rfl

theorem sendLoop_all_name_error (channel : String → Bool) (c : Campaign)
    (rs : List Recipient) (st : SendState) :
    sendLoop channel c rs st =
      { sent := st.sent, errCount := st.errCount + rs.length,
        errors := st.errors ++ rs.map (fun r => sendErrorMsg r.email nameErrorText),
        calls := st.calls } := by
  induction rs generalizing st with
  | nil => simp [sendLoop]
  | cons r rest ih =>
    simp only [sendLoop, attemptSend_eq]
    rw [ih]
    simp only [SendState.mk.injEq, List.length_cons, List.map_cons,
      List.append_assoc, List.singleton_append, List.append_nil, true_and]
    exact ⟨by omega, trivial⟩

/-! ## Claim C1 -/

/-- C1 (actual behaviour at the claim's scenario): with 3 active recipients
linked to the campaign and a notification channel that would succeed for
`a@x.com` and `b@x.com` and fail for `c@x.com`, `send_campaign_task` does
not return `sent_count=2, error_count=1`: the per-recipient send expression
raises `NameError` for every recipient, so it returns `sent_count=0,
error_count=3` (every address in the errors list), never calls the channel,
and still sets the campaign status to `sent`. -/
theorem C1_partial_failure_scenario_actual :
    channelC1 "a@x.com" = true ∧ channelC1 "b@x.com" = true
    ∧ channelC1 "c@x.com" = false
    ∧ send_campaign_task storeC1 1 channelC1
      = (.ok { campaign_id := 1, sent_count := 0, error_count := 3,
               errors := [sendErrorMsg "a@x.com" nameErrorText,
                          sendErrorMsg "b@x.com" nameErrorText,
                          sendErrorMsg "c@x.com" nameErrorText],
               status := "completed" },
         { storeC1 with
             campaigns := [ { id := 1, title := "Sale", message := "50% off",
                              status := "sent", recipientIds := [1, 2, 3] } ] },
         []) := by
  refine ⟨rfl, rfl, rfl, ?_⟩
  decide

/-! ## Claim C3 -/

/-- C3 (actual behaviour): reconciling `["a@x.com","b@x.com","a@x.com"]`
into an empty directory does not deduplicate inside the run.  The session
has `autoflush=False`, so the third lookup misses the pending recipient
created at the first: the loop builds two pending rows for `a@x.com`
(in-memory `processed_count` 3, links to three distinct session objects),
and the single commit violates the unique index on `recipients.email`, so
the task raises `CampaignError` and the store is left unchanged — no
recipients, no links, status still `pending`. -/
theorem C3_duplicate_email_aborts_run :
    (reconLoop storeC3.recipients ["a@x.com", "b@x.com", "a@x.com"] []
        { pendings := [], links := [], processed := 0, skipped := 0,
          errors := [], nextId := 1 }).processed = 3
    ∧ (reconLoop storeC3.recipients ["a@x.com", "b@x.com", "a@x.com"] []
        { pendings := [], links := [], processed := 0, skipped := 0,
          errors := [], nextId := 1 }).pendings.map (·.email)
      = ["a@x.com", "b@x.com", "a@x.com"]
    ∧ process_recipients_task storeC3 1 ["a@x.com", "b@x.com", "a@x.com"] []
      = (.error (.campaign "Failed to process recipients" 1
          "process_recipients"), storeC3) := by
  refine ⟨rfl, rfl, ?_⟩
  decide

/-! ## Claim C4 counterexample -/

/-- C4 counterexample: for the email list `["a@x.com","a@x.com"]` against an
empty directory, the first `Reconcile` run fails at its commit (duplicate
pending inserts for one email), so running it a second time with identical
input does not return `processed=0` — the second run raises `CampaignError`
just like the first. -/
theorem C4_counterexample_second_run_errors :
    process_recipients_task storeC3 1 ["a@x.com", "a@x.com"] []
      = (.error (.campaign "Failed to process recipients" 1
          "process_recipients"), storeC3)
    ∧ (process_recipients_task
        (process_recipients_task storeC3 1 ["a@x.com", "a@x.com"] []).2
        1 ["a@x.com", "a@x.com"] []).1
      = .error (.campaign "Failed to process recipients" 1
          "process_recipients") := by
  constructor <;> decide

/-! ## Claim C10 -/

/-- C10: for every campaign with at least one active recipient and any
notification-channel behaviour, `send_campaign_task` returns `sent_count=0`
and `error_count = n` (one `NameError` entry per active recipient), makes
no notification-channel call, and still sets the campaign status to
`sent`: the name `notifiers` is not defined in the worker module, so every
per-recipient send attempt raises and is recorded as a per-recipient
error. -/
theorem C10_dispatch_always_errors (s : Store) (cid : Nat)
    (channel : String → Bool) (c : Campaign) (hc : findCampaign s cid = some c)
    (hne : activeRecipients s c ≠ []) :
    send_campaign_task s cid channel
      = (.ok { campaign_id := cid, sent_count := 0,
               error_count := (activeRecipients s c).length,
               errors := (activeRecipients s c).map
                 (fun r => sendErrorMsg r.email nameErrorText),
               status := "completed" },
         { s with campaigns := s.campaigns.map (fun k =>
             if k.id = cid then { k with status := "sent" } else k) },
         [])
    ∧ findCampaign
        { s with campaigns := s.campaigns.map (fun k =>
            if k.id = cid then { k with status := "sent" } else k) } cid
      = some { c with status := "sent" } := by
  have hc' : s.campaigns.find? (fun k => k.id == cid) = some c := hc
  have hcid : c.id = cid := by
    have hp := List.find?_some hc'
    simpa using hp
  constructor
  · have hie : (activeRecipients s c).isEmpty = false := by
      cases hh : activeRecipients s c with
      | nil => exact absurd hh hne
      | cons a as => rfl
    simp only [send_campaign_task, hc, hie]
    rw [sendLoop_all_name_error]
    simp
  · have h2 := findCampaign_map_update s.campaigns cid
      (fun k => { k with status := "sent" }) (fun k => rfl) c hc'
    rw [if_pos hcid] at h2
    exact h2

/-- The campaign row of `storeC1`. -/
def campaignC1 : Campaign :=
  { id := 1, title := "Sale", message := "50% off", status := "queued",
    recipientIds := [1, 2, 3] }

/-- Witness for C10 at a concrete store with three active recipients. -/
theorem C10_witness :
    send_campaign_task storeC1 1 (fun _ => true)
      = (.ok { campaign_id := 1, sent_count := 0,
               error_count := (activeRecipients storeC1 campaignC1).length,
               errors := (activeRecipients storeC1 campaignC1).map
                 (fun r => sendErrorMsg r.email nameErrorText),
               status := "completed" },
         { storeC1 with campaigns := storeC1.campaigns.map (fun k =>
             if k.id = 1 then { k with status := "sent" } else k) },
         [])
    ∧ findCampaign
        { storeC1 with campaigns := storeC1.campaigns.map (fun k =>
            if k.id = 1 then { k with status := "sent" } else k) } 1
      = some { campaignC1 with status := "sent" } :=
  C10_dispatch_always_errors storeC1 1 (fun _ => true) campaignC1 rfl (by decide)

/-! ## Claim C6 -/

/-- C6: for every campaign whose active-recipient set is empty,
`send_campaign_task` sets the status to `sent_no_recipients`, commits,
returns `sent_count=0` and `error_count=0` as a successful result, and
performs no notification-channel call. -/
theorem C6_empty_active_terminal (s : Store) (cid : Nat)
    (channel : String → Bool) (c : Campaign) (hc : findCampaign s cid = some c)
    (he : activeRecipients s c = []) :
    send_campaign_task s cid channel
      = (.ok { campaign_id := cid, sent_count := 0, error_count := 0,
               errors := [], status := "completed_no_recipients" },
         { s with campaigns := s.campaigns.map (fun k =>
             if k.id = cid then { k with status := "sent_no_recipients" } else k) },
         [])
    ∧ findCampaign
        { s with campaigns := s.campaigns.map (fun k =>
            if k.id = cid then { k with status := "sent_no_recipients" } else k) } cid
      = some { c with status := "sent_no_recipients" } := by
  have hc' : s.campaigns.find? (fun k => k.id == cid) = some c := hc
  have hcid : c.id = cid := by
    have hp := List.find?_some hc'
    simpa using hp
  constructor
  · simp only [send_campaign_task, hc, he]
    simp
  · have h2 := findCampaign_map_update s.campaigns cid
      (fun k => { k with status := "sent_no_recipients" }) (fun k => rfl) c hc'
    rw [if_pos hcid] at h2
    exact h2

/-- A store in which campaign 2's only linked recipient has opted out. -/
def storeC6 : Store :=
  { recipients := [ { id := 1, email := "o@x.com", opt_out := true } ],
    campaigns := [ { id := 2, title := "T", message := "M", status := "queued",
                     recipientIds := [1] } ],
    nextRecipientId := 2 }

/-- The campaign row of `storeC6`. -/
def campaignC6 : Campaign :=
  { id := 2, title := "T", message := "M", status := "queued",
    recipientIds := [1] }

/-- Witness for C6 at a concrete store whose only linked recipient has
opted out, so the active set is empty. -/
theorem C6_witness :
    send_campaign_task storeC6 2 (fun _ => true)
      = (.ok { campaign_id := 2, sent_count := 0, error_count := 0,
               errors := [], status := "completed_no_recipients" },
         { storeC6 with campaigns := storeC6.campaigns.map (fun k =>
             if k.id = 2 then { k with status := "sent_no_recipients" } else k) },
         [])
    ∧ findCampaign
        { storeC6 with campaigns := storeC6.campaigns.map (fun k =>
            if k.id = 2 then { k with status := "sent_no_recipients" } else k) } 2
      = some { campaignC6 with status := "sent_no_recipients" } :=
  C6_empty_active_terminal storeC6 2 (fun _ => true) campaignC6 rfl (by decide)

/-! ## Reconciliation-loop lemmas -/

theorem reconLoop_cons_true (rs : List Recipient) (e : String) (es : List String)
    (oracle : List Bool) (st : ReconState) (hb : oracle.headD false = true) :
    reconLoop rs (e :: es) oracle st
      = reconLoop rs es oracle.tail
          { st with errors := st.errors ++ [recipErrorMsg e] } := by
  simp only [reconLoop, hb, if_true]

theorem reconLoop_cons_false (rs : List Recipient) (e : String) (es : List String)
    (oracle : List Bool) (st : ReconState) (hb : oracle.headD false = false) :
    reconLoop rs (e :: es) oracle st
      = reconLoop rs es oracle.tail (stepEmail rs e st) := by
  simp only [reconLoop, hb]
  simp

theorem failedEmails_cons_true (e : String) (es : List String)
    (oracle : List Bool) (hb : oracle.headD false = true) :
    failedEmails (e :: es) oracle = e :: failedEmails es oracle.tail := by
  simp only [failedEmails, hb, if_true]

theorem failedEmails_cons_false (e : String) (es : List String)
    (oracle : List Bool) (hb : oracle.headD false = false) :
    failedEmails (e :: es) oracle = failedEmails es oracle.tail := by
  simp only [failedEmails, hb]
  simp

theorem optedOutHits_cons_true (rs : List Recipient) (e : String)
    (es : List String) (oracle : List Bool) (hb : oracle.headD false = true) :
    optedOutHits rs (e :: es) oracle = optedOutHits rs es oracle.tail := by
  simp only [optedOutHits, hb, if_true]
  simp

theorem optedOutHits_cons_false (rs : List Recipient) (e : String)
    (es : List String) (oracle : List Bool) (hb : oracle.headD false = false) :
    optedOutHits rs (e :: es) oracle
      = (match findByEmail rs e with
         | some r => if r.opt_out then 1 else 0
         | none => 0) + optedOutHits rs es oracle.tail := by
  simp only [optedOutHits, hb]
  simp

theorem stepEmail_none (rs : List Recipient) (e : String) (st : ReconState)
    (hfe : findByEmail rs e = none) :
    stepEmail rs e st
      = { st with
            pendings := st.pendings
              ++ [{ id := st.nextId, email := e, name := none, groupId := none,
                    opt_out := false }],
            links := st.links ++ [st.nextId],
            processed := st.processed + 1,
            nextId := st.nextId + 1 } := by
  unfold stepEmail
  rw [hfe]

theorem stepEmail_optout (rs : List Recipient) (e : String) (st : ReconState)
    (r : Recipient) (hfe : findByEmail rs e = some r) (hro : r.opt_out = true) :
    stepEmail rs e st = { st with skipped := st.skipped + 1 } := by
  unfold stepEmail
  rw [hfe]
  simp [hro]

theorem stepEmail_linked (rs : List Recipient) (e : String) (st : ReconState)
    (r : Recipient) (hfe : findByEmail rs e = some r) (hro : r.opt_out = false)
    (hm : r.id ∈ st.links) :
    stepEmail rs e st = st := by
  unfold stepEmail
  rw [hfe]
  simp [hro, hm]

theorem stepEmail_newlink (rs : List Recipient) (e : String) (st : ReconState)
    (r : Recipient) (hfe : findByEmail rs e = some r) (hro : r.opt_out = false)
    (hm : r.id ∉ st.links) :
    stepEmail rs e st
      = { st with links := st.links ++ [r.id], processed := st.processed + 1 } := by
  unfold stepEmail
  rw [hfe]
  simp [hro, hm]

theorem stepEmail_mono (rs : List Recipient) (e : String) (st : ReconState) :
    (∀ p ∈ st.pendings, p ∈ (stepEmail rs e st).pendings)
    ∧ (∀ i ∈ st.links, i ∈ (stepEmail rs e st).links)
    ∧ st.nextId ≤ (stepEmail rs e st).nextId := by
  cases hfe : findByEmail rs e with
  | none =>
    rw [stepEmail_none rs e st hfe]
    refine ⟨fun p hp => ?_, fun i hi => ?_, ?_⟩ <;> simp_all
  | some r =>
    cases hro : r.opt_out with
    | true => rw [stepEmail_optout rs e st r hfe hro]; simp
    | false =>
      by_cases hm : r.id ∈ st.links
      · rw [stepEmail_linked rs e st r hfe hro hm]; simp
      · rw [stepEmail_newlink rs e st r hfe hro hm]
        refine ⟨fun p hp => ?_, fun i hi => ?_, ?_⟩ <;> simp_all

theorem stepEmail_errors (rs : List Recipient) (e : String) (st : ReconState) :
    (stepEmail rs e st).errors = st.errors := by
  cases hfe : findByEmail rs e with
  | none => rw [stepEmail_none rs e st hfe]
  | some r =>
    cases hro : r.opt_out with
    | true => rw [stepEmail_optout rs e st r hfe hro]
    | false =>
      by_cases hm : r.id ∈ st.links
      · rw [stepEmail_linked rs e st r hfe hro hm]
      · rw [stepEmail_newlink rs e st r hfe hro hm]

theorem stepEmail_skipped (rs : List Recipient) (e : String) (st : ReconState) :
    (stepEmail rs e st).skipped
      = st.skipped + (match findByEmail rs e with
                      | some r => if r.opt_out then 1 else 0
                      | none => 0) := by
  cases hfe : findByEmail rs e with
  | none => rw [stepEmail_none rs e st hfe]; simp
  | some r =>
    cases hro : r.opt_out with
    | true => rw [stepEmail_optout rs e st r hfe hro]; simp [hro]
    | false =>
      by_cases hm : r.id ∈ st.links
      · rw [stepEmail_linked rs e st r hfe hro hm]; simp [hro]
      · rw [stepEmail_newlink rs e st r hfe hro hm]; simp [hro]

theorem reconLoop_mono (rs : List Recipient) (emails : List String)
    (oracle : List Bool) (st : ReconState) :
    (∀ p ∈ st.pendings, p ∈ (reconLoop rs emails oracle st).pendings)
    ∧ (∀ i ∈ st.links, i ∈ (reconLoop rs emails oracle st).links)
    ∧ st.nextId ≤ (reconLoop rs emails oracle st).nextId := by
  induction emails generalizing oracle st with
  | nil => simp [reconLoop]
  | cons e es ih =>
    cases hb : oracle.headD false with
    | true =>
      rw [reconLoop_cons_true rs e es oracle st hb]
      exact ih oracle.tail { st with errors := st.errors ++ [recipErrorMsg e] }
    | false =>
      rw [reconLoop_cons_false rs e es oracle st hb]
      obtain ⟨hp, hl, hn⟩ := ih oracle.tail (stepEmail rs e st)
      obtain ⟨sp, sl, sn⟩ := stepEmail_mono rs e st
      exact ⟨fun p h => hp p (sp p h), fun i h => hl i (sl i h), le_trans sn hn⟩

theorem reconLoop_pendings_linked (rs : List Recipient) (emails : List String)
    (oracle : List Bool) (st : ReconState)
    (h : ∀ p ∈ st.pendings, p.id ∈ st.links) :
    ∀ p ∈ (reconLoop rs emails oracle st).pendings,
      p.id ∈ (reconLoop rs emails oracle st).links := by
  induction emails generalizing oracle st with
  | nil => simpa [reconLoop] using h
  | cons e es ih =>
    cases hb : oracle.headD false with
    | true =>
      rw [reconLoop_cons_true rs e es oracle st hb]
      exact ih oracle.tail { st with errors := st.errors ++ [recipErrorMsg e] } h
    | false =>
      rw [reconLoop_cons_false rs e es oracle st hb]
      refine ih oracle.tail (stepEmail rs e st) ?_
      intro p hp
      cases hfe : findByEmail rs e with
      | none =>
        rw [stepEmail_none rs e st hfe] at hp ⊢
        simp only [] at hp
        rcases List.mem_append.mp hp with hold | hnew
        · exact List.mem_append_left _ (h p hold)
        · simp only [List.mem_singleton] at hnew
          subst hnew
          simp
      | some r =>
        cases hro : r.opt_out with
        | true =>
          rw [stepEmail_optout rs e st r hfe hro] at hp ⊢
          exact h p hp
        | false =>
          by_cases hm : r.id ∈ st.links
          · rw [stepEmail_linked rs e st r hfe hro hm] at hp ⊢
            exact h p hp
          · rw [stepEmail_newlink rs e st r hfe hro hm] at hp ⊢
            exact List.mem_append_left _ (h p hp)

theorem reconLoop_errors (rs : List Recipient) (emails : List String)
    (oracle : List Bool) (st : ReconState) :
    (reconLoop rs emails oracle st).errors
      = st.errors ++ (failedEmails emails oracle).map recipErrorMsg := by
  induction emails generalizing oracle st with
  | nil => simp [reconLoop, failedEmails]
  | cons e es ih =>
    cases hb : oracle.headD false with
    | true =>
      rw [reconLoop_cons_true rs e es oracle st hb,
        failedEmails_cons_true e es oracle hb, ih]
      simp [List.append_assoc]
    | false =>
      rw [reconLoop_cons_false rs e es oracle st hb,
        failedEmails_cons_false e es oracle hb, ih, stepEmail_errors]

theorem reconLoop_skipped (rs : List Recipient) (emails : List String)
    (oracle : List Bool) (st : ReconState) :
    (reconLoop rs emails oracle st).skipped
      = st.skipped + optedOutHits rs emails oracle := by
  induction emails generalizing oracle st with
  | nil => simp [reconLoop, optedOutHits]
  | cons e es ih =>
    cases hb : oracle.headD false with
    | true =>
      rw [reconLoop_cons_true rs e es oracle st hb,
        optedOutHits_cons_true rs e es oracle hb, ih]
    | false =>
      rw [reconLoop_cons_false rs e es oracle st hb,
        optedOutHits_cons_false rs e es oracle hb, ih, stepEmail_skipped]
      omega

theorem reconLoop_links_src (rs : List Recipient) (emails : List String)
    (oracle : List Bool) (st : ReconState) :
    ∀ i ∈ (reconLoop rs emails oracle st).links,
      i ∈ st.links ∨ st.nextId ≤ i
        ∨ ∃ x ∈ rs, x.id = i ∧ x.opt_out = false := by
  induction emails generalizing oracle st with
  | nil => exact fun i hi => .inl (by simpa [reconLoop] using hi)
  | cons e es ih =>
    cases hb : oracle.headD false with
    | true =>
      rw [reconLoop_cons_true rs e es oracle st hb]
      exact ih oracle.tail { st with errors := st.errors ++ [recipErrorMsg e] }
    | false =>
      rw [reconLoop_cons_false rs e es oracle st hb]
      intro i hi
      rcases ih oracle.tail (stepEmail rs e st) i hi with h1 | h2 | h3
      · cases hfe : findByEmail rs e with
        | none =>
          rw [stepEmail_none rs e st hfe] at h1
          simp only [] at h1
          rcases List.mem_append.mp h1 with hold | hnew
          · exact .inl hold
          · simp only [List.mem_singleton] at hnew
            subst hnew
            exact .inr (.inl (le_refl _))
        | some r =>
          cases hro : r.opt_out with
          | true =>
            rw [stepEmail_optout rs e st r hfe hro] at h1
            exact .inl h1
          | false =>
            by_cases hm : r.id ∈ st.links
            · rw [stepEmail_linked rs e st r hfe hro hm] at h1
              exact .inl h1
            · rw [stepEmail_newlink rs e st r hfe hro hm] at h1
              rcases List.mem_append.mp h1 with hold | hnew
              · exact .inl hold
              · simp only [List.mem_singleton] at hnew
                subst hnew
                exact .inr (.inr ⟨r, List.mem_of_find?_eq_some hfe, rfl, hro⟩)
      · exact .inr (.inl (le_trans (stepEmail_mono rs e st).2.2 h2))
      · exact .inr (.inr h3)

theorem stepEmail_pendings_linked (rs : List Recipient) (e : String)
    (st : ReconState) (hpl : ∀ p ∈ st.pendings, p.id ∈ st.links) :
    ∀ p ∈ (stepEmail rs e st).pendings, p.id ∈ (stepEmail rs e st).links := by
  intro p hp
  cases hfe : findByEmail rs e with
  | none =>
    rw [stepEmail_none rs e st hfe] at hp ⊢
    simp only [] at hp
    rcases List.mem_append.mp hp with hold | hnew
    · exact List.mem_append_left _ (hpl p hold)
    · simp only [List.mem_singleton] at hnew
      subst hnew
      simp
  | some r =>
    cases hro : r.opt_out with
    | true =>
      rw [stepEmail_optout rs e st r hfe hro] at hp ⊢
      exact hpl p hp
    | false =>
      by_cases hm : r.id ∈ st.links
      · rw [stepEmail_linked rs e st r hfe hro hm] at hp ⊢
        exact hpl p hp
      · rw [stepEmail_newlink rs e st r hfe hro hm] at hp ⊢
        exact List.mem_append_left _ (hpl p hp)

/-- After a failure-free reconciliation run, every input email resolves in
the committed-plus-flushed recipient list, and the recipient it resolves to
is either opted out or linked to the campaign. -/
theorem reconLoop_post (rs : List Recipient) (emails : List String)
    (st : ReconState) (hpl : ∀ p ∈ st.pendings, p.id ∈ st.links) :
    ∀ e ∈ emails,
      ∃ r, findByEmail (rs ++ (reconLoop rs emails [] st).pendings) e = some r
        ∧ (r.opt_out = true ∨ r.id ∈ (reconLoop rs emails [] st).links) := by
  induction emails generalizing st with
  | nil => intro e he; cases he
  | cons e0 es ih =>
    rw [reconLoop_cons_false rs e0 es [] st rfl]
    simp only [List.tail_nil]
    have hpl1 := stepEmail_pendings_linked rs e0 st hpl
    intro e he
    rcases List.mem_cons.mp he with heq | hes
    · subst heq
      cases hfe : findByEmail rs e with
      | some r =>
        refine ⟨r, find?_append_left _ _ _ _ hfe, ?_⟩
        cases hro : r.opt_out with
        | true => exact .inl rfl
        | false =>
          right
          have hstep : r.id ∈ (stepEmail rs e st).links := by
            by_cases hm : r.id ∈ st.links
            · rw [stepEmail_linked rs e st r hfe hro hm]; exact hm
            · rw [stepEmail_newlink rs e st r hfe hro hm]; simp
          exact (reconLoop_mono rs es [] (stepEmail rs e st)).2.1 r.id hstep
      | none =>
        have hFlinked := reconLoop_pendings_linked rs es [] (stepEmail rs e st) hpl1
        have hpmem : Recipient.mk st.nextId e none none false
            ∈ (reconLoop rs es [] (stepEmail rs e st)).pendings := by
          apply (reconLoop_mono rs es [] (stepEmail rs e st)).1
          rw [stepEmail_none rs e st hfe]
          simp
        cases hq : findByEmail (reconLoop rs es [] (stepEmail rs e st)).pendings e with
        | none =>
          exfalso
          have := List.find?_eq_none.mp hq _ hpmem
          simp at this
        | some q =>
          refine ⟨q, ?_, .inr (hFlinked q (List.mem_of_find?_eq_some hq))⟩
          unfold findByEmail at hfe hq ⊢
          rw [find?_append_none _ _ _ hfe]
          exact hq
    · exact ih (stepEmail rs e0 st) hpl1 e hes

/-- When every input email already resolves to a recipient that is opted
out or already linked, a failure-free reconciliation loop is a no-op on
pendings, links, processed, errors and the id counter. -/
theorem reconLoop_noop (rs : List Recipient) (emails : List String)
    (st : ReconState)
    (h : ∀ e ∈ emails, ∃ r, findByEmail rs e = some r
          ∧ (r.opt_out = true ∨ r.id ∈ st.links)) :
    (reconLoop rs emails [] st).pendings = st.pendings
    ∧ (reconLoop rs emails [] st).links = st.links
    ∧ (reconLoop rs emails [] st).processed = st.processed
    ∧ (reconLoop rs emails [] st).errors = st.errors
    ∧ (reconLoop rs emails [] st).nextId = st.nextId := by
  induction emails generalizing st with
  | nil => simp [reconLoop]
  | cons e0 es ih =>
    rw [reconLoop_cons_false rs e0 es [] st rfl]
    simp only [List.tail_nil]
    obtain ⟨r, hfe, hor⟩ := h e0 (by simp)
    cases hro : r.opt_out with
    | true =>
      rw [stepEmail_optout rs e0 st r hfe hro]
      exact ih { st with skipped := st.skipped + 1 }
        (fun e he => h e (List.mem_cons_of_mem _ he))
    | false =>
      have hm : r.id ∈ st.links := by
        rcases hor with h1 | h2
        · rw [hro] at h1; cases h1
        · exact h2
      rw [stepEmail_linked rs e0 st r hfe hro hm]
      exact ih st (fun e he => h e (List.mem_cons_of_mem _ he))

/-- Inversion of a successful `process_recipients_task` run. -/
theorem process_ok_inv (s : Store) (cid : Nat) (emails : List String)
    (oracle : List Bool) (res : ReconResult) (s' : Store)
    (h : process_recipients_task s cid emails oracle = (.ok res, s')) :
    ∃ c, findCampaign s cid = some c
      ∧ emailsUnique s.recipients
          (reconLoop s.recipients emails oracle (initState s c)).pendings
      ∧ res = reconResult cid (reconLoop s.recipients emails oracle (initState s c))
      ∧ s' = commitRecon s cid (reconLoop s.recipients emails oracle (initState s c)) := by
  cases hfc : findCampaign s cid with
  | none =>
    simp only [process_recipients_task, hfc] at h
    injection h with h1 h2
    exact Except.noConfusion h1
  | some c =>
    simp only [process_recipients_task, hfc] at h
    by_cases hu : emailsUnique s.recipients
        (reconLoop s.recipients emails oracle (initState s c)).pendings
    · rw [if_pos hu] at h
      injection h with h1 h2
      injection h1 with h1
      exact ⟨c, rfl, hu, h1.symm, h2.symm⟩
    · rw [if_neg hu] at h
      injection h with h1 h2
      exact Except.noConfusion h1

/-! ## Claim C5 -/

/-- C5: in every completed `process_recipients_task` run, the per-email
failures are exactly the entries of the errors list (keyed by the failing
email, in order), they are counted in `error_count`, later emails are still
processed (a failure never truncates the error stream), the run reports
success, and the committed campaign status is `recipients_processed`
unconditionally — also when some emails errored.  The run's changes land in
the single final commit by construction (`commitRecon`). -/
theorem C5_per_email_failure_isolation (s : Store) (cid : Nat)
    (emails : List String) (oracle : List Bool) (res : ReconResult) (s' : Store)
    (h : process_recipients_task s cid emails oracle = (.ok res, s')) :
    res.errors = (failedEmails emails oracle).map recipErrorMsg
    ∧ res.error_count = (failedEmails emails oracle).length
    ∧ res.status = "completed"
    ∧ ∃ c', findCampaign s' cid = some c'
        ∧ c'.status = "recipients_processed" := by
  obtain ⟨c, hfc, hu, hres, hs'⟩ := process_ok_inv s cid emails oracle res s' h
  subst hres
  subst hs'
  have herr : (reconLoop s.recipients emails oracle (initState s c)).errors
      = (failedEmails emails oracle).map recipErrorMsg := by
    rw [reconLoop_errors]
    simp [initState]
  refine ⟨?_, ?_, rfl, ?_⟩
  · simpa [reconResult] using herr
  · simp [reconResult, herr]
  · have hc' : s.campaigns.find? (fun k => k.id == cid) = some c := hfc
    have hcid : c.id = cid := by simpa using List.find?_some hc'
    have h2 := findCampaign_map_update s.campaigns cid
      (fun k =>
        { k with
            status := "recipients_processed",
            recipientIds :=
              (reconLoop s.recipients emails oracle (initState s c)).links })
      (fun k => rfl) c hc'
    rw [if_pos hcid] at h2
    exact ⟨_, h2, rfl⟩

/-- The result of reconciling `["a@x.com","b@x.com"]` into `storeC3` when
the first item raises a transient per-email exception. -/
def resC5 : ReconResult :=
  { campaign_id := 1, processed_count := 1, skipped_count := 0,
    error_count := 1, errors := [recipErrorMsg "a@x.com"],
    status := "completed" }

/-- The store committed by that run: only `b@x.com` created and linked. -/
def storeC5 : Store :=
  { recipients := [ { id := 1, email := "b@x.com", opt_out := false } ],
    campaigns := [ { id := 1, title := "Sale", message := "50% off",
                     status := "recipients_processed", recipientIds := [1] } ],
    nextRecipientId := 2 }

/-- Witness for C5: a concrete run in which the first email fails and the
second is still processed, with the status committed regardless. -/
theorem C5_witness :
    resC5.errors = (failedEmails ["a@x.com", "b@x.com"] [true]).map recipErrorMsg
    ∧ resC5.error_count = (failedEmails ["a@x.com", "b@x.com"] [true]).length
    ∧ resC5.status = "completed"
    ∧ ∃ c', findCampaign storeC5 1 = some c'
        ∧ c'.status = "recipients_processed" :=
  C5_per_email_failure_isolation storeC3 1 ["a@x.com", "b@x.com"] [true]
    resC5 storeC5 (by decide)

/-! ## Claim C8 -/

/-- C8: an opted-out recipient is never a member of the dispatcher's active
set; a reconciliation run never links an opted-out committed recipient that
was not already linked (regardless of its group assignment, which no branch
consults); and each non-failing loop iteration that resolves to an
opted-out recipient is counted in `skipped_count`. -/
theorem C8_opt_out_exclusion (s : Store) (cid : Nat) (emails : List String)
    (oracle : List Bool) (hwf : s.WF) :
    (∀ c r, r.opt_out = true → r ∉ activeRecipients s c)
    ∧ (∀ res s' c0 c' r,
        process_recipients_task s cid emails oracle = (.ok res, s') →
        findCampaign s cid = some c0 → findCampaign s' cid = some c' →
        r ∈ s.recipients → r.opt_out = true → r.id ∉ c0.recipientIds →
        r.id ∉ c'.recipientIds)
    ∧ (∀ res s',
        process_recipients_task s cid emails oracle = (.ok res, s') →
        res.skipped_count = optedOutHits s.recipients emails oracle) := by
  refine ⟨?_, ?_, ?_⟩
  · intro c r hro hmem
    have hf := (List.mem_filter.mp hmem).2
    rw [hro] at hf
    simp at hf
  · intro res s' c0 c' r h hc0 hc' hr hro hnotin
    obtain ⟨c, hfc, hu, hres, hs'⟩ := process_ok_inv s cid emails oracle res s' h
    rw [hfc] at hc0
    injection hc0 with hc0
    subst hc0
    subst hs'
    have hcc : s.campaigns.find? (fun k => k.id == cid) = some c := hfc
    have hcid : c.id = cid := by simpa using List.find?_some hcc
    have h2 := findCampaign_map_update s.campaigns cid
      (fun k =>
        { k with
            status := "recipients_processed",
            recipientIds :=
              (reconLoop s.recipients emails oracle (initState s c)).links })
      (fun k => rfl) c hcc
    rw [if_pos hcid] at h2
    have hc'' : findCampaign (commitRecon s cid
        (reconLoop s.recipients emails oracle (initState s c))) cid
        = some
            { c with
                status := "recipients_processed",
                recipientIds :=
                  (reconLoop s.recipients emails oracle (initState s c)).links }
        := h2
    rw [hc''] at hc'
    injection hc' with hc'
    subst hc'
    intro hmem
    rcases reconLoop_links_src s.recipients emails oracle (initState s c)
      r.id hmem with h1 | h2' | h3
    · exact hnotin (by simpa [initState] using h1)
    · have hlt := hwf.2.2 r hr
      simp only [initState] at h2'
      omega
    · obtain ⟨x, hx, hxid, hxoo⟩ := h3
      have hxr : x = r :=
        List.inj_on_of_nodup_map hwf.1 hx hr hxid
      rw [hxr] at hxoo
      rw [hro] at hxoo
      cases hxoo
  · intro res s' h
    obtain ⟨c, hfc, hu, hres, hs'⟩ := process_ok_inv s cid emails oracle res s' h
    subst hres
    show (reconLoop s.recipients emails oracle (initState s c)).skipped = _
    rw [reconLoop_skipped]
    simp [initState]

/-- A store with one opted-out and one active recipient, neither linked to
the pending campaign 1 yet. -/
def storeC8 : Store :=
  { recipients := [ { id := 1, email := "o@x.com", opt_out := true },
                    { id := 2, email := "a@x.com", opt_out := false } ],
    campaigns := [ { id := 1, title := "T", message := "M", status := "pending",
                     recipientIds := [] } ],
    nextRecipientId := 3 }

/-- The campaign row of `storeC8`. -/
def campaignC8 : Campaign :=
  { id := 1, title := "T", message := "M", status := "pending",
    recipientIds := [] }

/-- The result of reconciling `["o@x.com","a@x.com"]` into `storeC8`: the
opted-out recipient is skipped, the active one linked. -/
def resC8 : ReconResult :=
  { campaign_id := 1, processed_count := 1, skipped_count := 1,
    error_count := 0, errors := [], status := "completed" }

/-- The store committed by that run. -/
def storeC8' : Store :=
  { recipients := [ { id := 1, email := "o@x.com", opt_out := true },
                    { id := 2, email := "a@x.com", opt_out := false } ],
    campaigns := [ { id := 1, title := "T", message := "M",
                     status := "recipients_processed", recipientIds := [2] } ],
    nextRecipientId := 3 }

/-- The campaign row of `storeC8` after the reconciliation run. -/
def campaignC8' : Campaign :=
  { id := 1, title := "T", message := "M", status := "recipients_processed",
    recipientIds := [2] }

/-- Witness for C8 at a concrete run: the opted-out recipient is not in the
active set, stays unlinked after reconciliation, and is counted once in
`skipped_count`. -/
theorem C8_witness :
    (Recipient.mk 1 "o@x.com" none none true ∉ activeRecipients storeC8 campaignC8)
    ∧ ((1 : Nat) ∉ campaignC8'.recipientIds)
    ∧ resC8.skipped_count
        = optedOutHits storeC8.recipients ["o@x.com", "a@x.com"] [] := by
  have H := C8_opt_out_exclusion storeC8 1 ["o@x.com", "a@x.com"] [] (by decide)
  refine ⟨H.1 campaignC8 (Recipient.mk 1 "o@x.com" none none true) rfl, ?_, ?_⟩
  · exact H.2.1 resC8 storeC8' campaignC8 campaignC8'
      (Recipient.mk 1 "o@x.com" none none true)
      (by decide) rfl (by decide) (by decide) rfl (by decide)
  · exact H.2.2 resC8 storeC8' (by decide)

/-! ## Claim C9 -/

/-- C9: for an email with no existing Recipient record,
`opt_out_recipient(email)` followed by `opt_in_recipient(email)` creates
exactly one Recipient record for that email (one row added in total, and
exactly one row carrying the email), and after the second call that
recipient's `opt_out` flag is false — both in the store and in the returned
row. -/
theorem C9_opt_out_then_opt_in (s : Store) (email : String) (hwf : s.WF)
    (h : findByEmail s.recipients email = none) :
    (opt_in_recipient (opt_out_recipient s email).2 email).2.recipients.length
        = s.recipients.length + 1
    ∧ ((opt_in_recipient (opt_out_recipient s email).2 email).2.recipients.filter
        (fun r => r.email == email)).length = 1
    ∧ (∀ r ∈ (opt_in_recipient (opt_out_recipient s email).2 email).2.recipients,
        r.email = email → r.opt_out = false)
    ∧ (opt_in_recipient (opt_out_recipient s email).2 email).1.email = email
    ∧ (opt_in_recipient (opt_out_recipient s email).2 email).1.opt_out = false := by
  have h1 : opt_out_recipient s email
      = (Recipient.mk s.nextRecipientId email none none true,
         { s with
             recipients := s.recipients
               ++ [Recipient.mk s.nextRecipientId email none none true],
             nextRecipientId := s.nextRecipientId + 1 }) := by
    unfold opt_out_recipient
    rw [h]
  have hfind : findByEmail
      (s.recipients ++ [Recipient.mk s.nextRecipientId email none none true]) email
      = some (Recipient.mk s.nextRecipientId email none none true) := by
    unfold findByEmail at h ⊢
    rw [find?_append_none _ _ _ h]
    simp
  have h2 : opt_in_recipient (opt_out_recipient s email).2 email
      = (Recipient.mk s.nextRecipientId email none none false,
         { s with
             recipients :=
               (s.recipients
                 ++ [Recipient.mk s.nextRecipientId email none none true]).map
                 (fun x => if x.id = s.nextRecipientId
                   then Recipient.mk s.nextRecipientId email none none false
                   else x),
             nextRecipientId := s.nextRecipientId + 1 }) := by
    rw [h1]
    unfold opt_in_recipient
    rw [hfind]
  have hmap :
      (s.recipients
        ++ [Recipient.mk s.nextRecipientId email none none true]).map
        (fun x => if x.id = s.nextRecipientId
          then Recipient.mk s.nextRecipientId email none none false
          else x)
      = s.recipients ++ [Recipient.mk s.nextRecipientId email none none false] := by
    rw [List.map_append]
    congr 1
    · apply map_eq_self_of_forall
      intro a ha
      have hlt : a.id < s.nextRecipientId := hwf.2.2 a ha
      have hne : ¬ a.id = s.nextRecipientId := by omega
      simp [hne]
    · simp
  have hmiss : ∀ x ∈ s.recipients, ¬ (x.email == email) = true :=
    List.find?_eq_none.mp h
  rw [h2, hmap]
  refine ⟨by simp, ?_, ?_, rfl, rfl⟩
  · rw [List.filter_append]
    have hnil : s.recipients.filter (fun r => r.email == email) = [] :=
      List.filter_eq_nil_iff.mpr hmiss
    rw [hnil]
    simp
  · intro r hr hre
    rcases List.mem_append.mp hr with hin | hone
    · exact absurd (by simp [hre]) (hmiss r hin)
    · simp only [List.mem_singleton] at hone
      rw [hone]

/-- Witness for C9 on an empty directory. -/
theorem C9_witness :
    (opt_in_recipient (opt_out_recipient storeC3 "n@x.com").2 "n@x.com").2.recipients.length
        = storeC3.recipients.length + 1
    ∧ ((opt_in_recipient (opt_out_recipient storeC3 "n@x.com").2 "n@x.com").2.recipients.filter
        (fun r => r.email == "n@x.com")).length = 1
    ∧ (∀ r ∈ (opt_in_recipient (opt_out_recipient storeC3 "n@x.com").2 "n@x.com").2.recipients,
        r.email = "n@x.com" → r.opt_out = false)
    ∧ (opt_in_recipient (opt_out_recipient storeC3 "n@x.com").2 "n@x.com").1.email = "n@x.com"
    ∧ (opt_in_recipient (opt_out_recipient storeC3 "n@x.com").2 "n@x.com").1.opt_out = false :=
  C9_opt_out_then_opt_in storeC3 "n@x.com" (by decide) rfl

/-! ## Claim C4 (amended) -/

/-- C4 (amended): whenever a failure-free `Reconcile` run completes
successfully (its single commit goes through), running it again with
identical input and no per-email failures is a no-op: the second run
returns `processed_count = 0` with no errors and leaves the entire
committed store — in particular the campaign's linked recipient set —
exactly unchanged, so no duplicate (campaign, recipient) link is ever
created. -/
theorem C4_amended_idempotent_after_success (s : Store) (cid : Nat)
    (emails : List String) (res : ReconResult) (s1 : Store)
    (h1 : process_recipients_task s cid emails [] = (.ok res, s1)) :
    ∃ res2, process_recipients_task s1 cid emails [] = (.ok res2, s1)
      ∧ res2.processed_count = 0 ∧ res2.error_count = 0 ∧ res2.errors = [] := by
  obtain ⟨c, hfc, hu, hres, hs1⟩ := process_ok_inv s cid emails [] res s1 h1
  subst hres
  subst hs1
  set st1 := reconLoop s.recipients emails [] (initState s c) with hst1def
  set S1 := commitRecon s cid st1 with hS1def
  set c1 : Campaign :=
    { c with status := "recipients_processed", recipientIds := st1.links }
    with hc1def
  have hcc : s.campaigns.find? (fun k => k.id == cid) = some c := hfc
  have hcid : c.id = cid := by simpa using List.find?_some hcc
  have h2 := findCampaign_map_update s.campaigns cid
    (fun k =>
      { k with status := "recipients_processed", recipientIds := st1.links })
    (fun k => rfl) c hcc
  rw [if_pos hcid] at h2
  have hS1c : findCampaign S1 cid = some c1 := h2
  have hpost := reconLoop_post s.recipients emails (initState s c)
    (by intro p hp; cases hp)
  have hpost' : ∀ e ∈ emails, ∃ r, findByEmail S1.recipients e = some r
      ∧ (r.opt_out = true ∨ r.id ∈ (initState S1 c1).links) := hpost
  have hno := reconLoop_noop S1.recipients emails (initState S1 c1) hpost'
  set st2 := reconLoop S1.recipients emails [] (initState S1 c1) with hst2def
  obtain ⟨hnp, hnl, hnproc, hnerr, hnnext⟩ := hno
  have e1 : st2.pendings = [] := hnp
  have e2 : st2.links = st1.links := hnl
  have e3 : st2.nextId = st1.nextId := hnnext
  have hu2 : emailsUnique S1.recipients st2.pendings := by
    rw [e1]
    show ((S1.recipients ++ []).map (fun r : Recipient => r.email)).Nodup
    rw [List.append_nil]
    have hrec : S1.recipients = s.recipients ++ st1.pendings := rfl
    rw [hrec]
    exact hu
  have hcommit : commitRecon S1 cid st2 = S1 := by
    have hmapid : S1.campaigns.map (fun k => if k.id = cid then ({ k with status := "recipients_processed", recipientIds := st2.links } : Campaign) else k) = S1.campaigns := by
      have hca : S1.campaigns = s.campaigns.map (fun k => if k.id = cid then ({ k with status := "recipients_processed", recipientIds := st1.links } : Campaign) else k) := rfl
      rw [e2, hca, List.map_map]
      have hff : ((fun k => if k.id = cid then ({ k with status := "recipients_processed", recipientIds := st1.links } : Campaign) else k) ∘ (fun k => if k.id = cid then ({ k with status := "recipients_processed", recipientIds := st1.links } : Campaign) else k)) = (fun k => if k.id = cid then ({ k with status := "recipients_processed", recipientIds := st1.links } : Campaign) else k) := by
        funext k
        by_cases hkid : k.id = cid
        · simp [Function.comp, hkid]
        · simp [Function.comp, hkid]
      rw [hff]
    show ({ recipients := S1.recipients ++ st2.pendings, campaigns := S1.campaigns.map (fun k => if k.id = cid then { k with status := "recipients_processed", recipientIds := st2.links } else k), nextRecipientId := st2.nextId } : Store) = S1
    rw [e1, e3, hmapid, List.append_nil]
    have hnext : st1.nextId = S1.nextRecipientId := rfl
    rw [hnext]
  refine ⟨reconResult cid st2, ?_, ?_, ?_, ?_⟩
  · simp only [process_recipients_task, hS1c]
    rw [← hst2def]
    rw [if_pos hu2, hcommit]
  · show st2.processed = 0
    rw [hnproc]
    rfl
  · show st2.errors.length = 0
    rw [hnerr]
    rfl
  · exact hnerr

/-- The result of the first (successful) reconciliation of
`["a@x.com","b@x.com"]` into `storeC3`. -/
def resC4 : ReconResult :=
  { campaign_id := 1, processed_count := 2, skipped_count := 0,
    error_count := 0, errors := [], status := "completed" }

/-- The store committed by that first run. -/
def storeC4 : Store :=
  { recipients := [ { id := 1, email := "a@x.com", opt_out := false },
                    { id := 2, email := "b@x.com", opt_out := false } ],
    campaigns := [ { id := 1, title := "Sale", message := "50% off",
                     status := "recipients_processed", recipientIds := [1, 2] } ],
    nextRecipientId := 3 }

/-- Witness for the amended C4: after a successful first run, the second
identical run returns `processed_count = 0` and leaves the store
unchanged. -/
theorem C4_witness :
    ∃ res2, process_recipients_task storeC4 1 ["a@x.com", "b@x.com"] []
        = (.ok res2, storeC4)
      ∧ res2.processed_count = 0 ∧ res2.error_count = 0 ∧ res2.errors = [] :=
  C4_amended_idempotent_after_success storeC3 1 ["a@x.com", "b@x.com"]
    resC4 storeC4 (by decide)

end CampaignManager
